import Mathlib

/-!
Verification of the gRPC notification layer of dipdup-net/abi-indexer
(`pkg/modules/grpc/server.go`): connection registry, subscription
bundles, the metadata subscribe/unsubscribe handlers, the streaming
dispatch loop, and the query facade.

The embedding is shallow: Go maps become association lists, the
process-wide `sync.Mutex` becomes an explicit `lockHeld` flag that
`Lock`/`Unlock` toggle, channels become identifiers allocated from a
counter with a set of closed identifiers, and each handler becomes a
pure function on the server state.
-/

namespace AbiIndexer

/-- Modelled from the spec (package `internal/storage` is not under `src/`):
sort order for listing calls, "ascending/descending, default ascending" —
the default (Go zero) value is ascending. -/
inductive SortOrder where
  | asc
  | desc
deriving DecidableEq

/-- Modelled from the spec (package `pkg/modules/grpc/pb` is not under `src/`):
the protobuf `SortOrder` enum is an open int32 enum with named values
ASC and DESC; ASC is the first (zero) value. -/
def pbSortOrderASC : Int := 0

/-- Modelled from the spec: the DESC value of the protobuf enum. -/
def pbSortOrderDESC : Int := 1

/-- Modelled from the spec (wire shape `Page{limit, offset, order}`,
package `pb` is not under `src/`): `limit`/`offset` are uint64 fields,
`order` is the open enum carried as an integer. -/
structure PbPage where
  limit : Nat
  offset : Nat
  order : Int
deriving DecidableEq

/-- `page` from server.go: limit, offset and storage sort order. -/
structure page where
  limit : Nat
  offset : Nat
  order : SortOrder
deriving DecidableEq

/-- `newPage` from server.go: `p := new(page)` zero-initializes; when the
request is non-nil limit and offset are copied and the order switch maps
ASC to asc, DESC to desc and everything else (default branch) to asc. -/
def newPage (req : Option PbPage) : page :=
  match req with
  | none => { limit := 0, offset := 0, order := SortOrder.asc }
  | some r =>
      { limit := r.limit
        offset := r.offset
        order :=
          if r.order = pbSortOrderASC then SortOrder.asc
          else if r.order = pbSortOrderDESC then SortOrder.desc
          else SortOrder.asc }

/-- `successMessage` constant from server.go. -/
def successMessage : String := "success"

/-- Modelled from the spec (package `pkg/modules/grpc/subscriptions` is not
under `src/`): the per-connection subscription bundle
(`subscriptions.Subscriptions`) holds the connection id and, per category,
either no channel or one live event channel; here the single metadata
category slot holds an optional channel identifier. -/
structure Subscriptions where
  id : String
  metadata : Option Nat
deriving DecidableEq

/-- Server state relevant to the handlers: the `subscribers` registry map
(association list keyed by connection identity), the mutex state of
`subsMx`, a fresh-channel allocator for `subscriptions.NewMetadata()`, and
the set of channel identifiers that have been closed. -/
structure ServerState where
  subscribers : List (String × Subscriptions)
  lockHeld : Bool
  nextChan : Nat
  closedChans : List Nat
deriving DecidableEq

/-- The server state at startup: empty registry, mutex free. -/
def initialServerState : ServerState :=
  { subscribers := [], lockHeld := false, nextChan := 0, closedChans := [] }

/-- Go map lookup `module.subscribers[id]` on the association list. -/
def lookupSub : List (String × Subscriptions) → String → Option Subscriptions
  | [], _ => none
  | (k, v) :: rest, x => if k = x then some v else lookupSub rest x

/-- Keys of the registry map. -/
def keys (m : List (String × Subscriptions)) : List String :=
  m.map Prod.fst

/-- Go `delete(module.subscribers, id)`. -/
def removeKey : List (String × Subscriptions) → String →
    List (String × Subscriptions)
  | [], _ => []
  | (k, v) :: rest, id =>
      if k = id then removeKey rest id else (k, v) :: removeKey rest id

/-- In Go `subscribers[id]` yields a pointer, and mutating the bundle
through it updates the map entry in place; here the entry is replaced. -/
def updateSub : List (String × Subscriptions) → String → Subscriptions →
    List (String × Subscriptions)
  | [], _, _ => []
  | (k, w) :: rest, id, v =>
      if k = id then (id, v) :: updateSub rest id v
      else (k, w) :: updateSub rest id v

/-- `getSubscriber` from server.go: map lookup, `unknown subscriber` error
when the identity has no registry entry. -/
def getSubscriber (st : ServerState) (id : String) :
    Except String Subscriptions :=
  match lookupSub st.subscribers id with
  | none => Except.error ("unknown subscriber: " ++ id)
  | some s => Except.ok s

/-- The registry-mutation phase of `SubscribeOnMetadata` from server.go
(everything before the dispatch loop): `subsMx.Lock()`; `getSubscriber`;
on error the handler returns at once — note there is no unlock on this
path; otherwise `subs.Metadata = subscriptions.NewMetadata()` installs a
fresh channel (the previous channel, if any, is merely overwritten) and
`subsMx.Unlock()` runs before the loop starts. Returns the error or the
channel handed to the dispatch loop, with the post-state. -/
def SubscribeOnMetadata (st : ServerState) (reqId : String) :
    Except String Nat × ServerState :=
  let st1 := { st with lockHeld := true }
  match getSubscriber st1 reqId with
  | Except.error e => (Except.error e, st1)
  | Except.ok subs =>
      let ch := st1.nextChan
      let subs2 := { subs with metadata := some ch }
      (Except.ok ch,
        { st1 with
            subscribers := updateSub st1.subscribers reqId subs2
            nextChan := ch + 1
            lockHeld := false })

/-- Wire shape `Message` (acknowledgment). -/
structure Message where
  message : String
deriving DecidableEq

/-- `UnsubscribeFromMetadata` from server.go: `subsMx.Lock()`;
`getSubscriber`; on error return at once (again without unlocking);
otherwise `subs.Metadata = nil` clears the channel reference (without
closing it), `subsMx.Unlock()`, and a success `Message` is returned. -/
def UnsubscribeFromMetadata (st : ServerState) (reqId : String) :
    Except String Message × ServerState :=
  let st1 := { st with lockHeld := true }
  match getSubscriber st1 reqId with
  | Except.error e => (Except.error e, st1)
  | Except.ok subs =>
      let subs2 := { subs with metadata := none }
      (Except.ok { message := successMessage },
        { st1 with
            subscribers := updateSub st1.subscribers reqId subs2
            lockHeld := false })

/-- Modelled from the spec (`subscriptions.Subscriptions.Close` is not
under `src/`): closing a bundle releases every active event channel it
holds — here the metadata slot, if occupied, is marked closed. -/
def subsClose (closedChans : List Nat) (subs : Subscriptions) : List Nat :=
  match subs.metadata with
  | none => closedChans
  | some ch => ch :: closedChans

/-- The `*stats.ConnEnd` arm of `HandleConn` from server.go: under the
lock, if the identity has an entry its bundle is closed (a close error is
only logged) and the entry deleted; otherwise nothing happens. -/
def handleConnEnd (st : ServerState) (id : String) : ServerState :=
  match lookupSub st.subscribers id with
  | none => st
  | some subs =>
      { st with
          subscribers := removeKey st.subscribers id
          closedChans := subsClose st.closedChans subs }

/-- The `*stats.ConnBegin` arm of `HandleConn` from server.go: under the
lock, if the identity has no entry yet, an entry with an empty bundle is
inserted. -/
def handleConnBegin (st : ServerState) (id : String) : ServerState :=
  if (lookupSub st.subscribers id).isSome then st
  else
    { st with
        subscribers := (id, { id := id, metadata := none }) :: st.subscribers }

/-- The kinds of `stats.ConnStats` values `HandleConn` switches on. -/
inductive ConnStats where
  | connBegin
  | connEnd
  | other
deriving DecidableEq

/-- Outcome of a Go function call that may panic. -/
inductive GoOutcome where
  | panicked
  | returned
deriving DecidableEq

/-- `HandleConn` from server.go: `ctx.Value(clientID).(string)` is an
unchecked type assertion, so a context carrying no client id (`none`)
panics before the switch on the event kind; otherwise the begin/end arms
run (other event kinds fall through the switch). -/
def HandleConn (ctxClientID : Option String) (s : ConnStats)
    (st : ServerState) : GoOutcome × ServerState :=
  match ctxClientID with
  | none => (GoOutcome.panicked, st)
  | some id =>
      match s with
      | ConnStats.connEnd => (GoOutcome.returned, handleConnEnd st id)
      | ConnStats.connBegin => (GoOutcome.returned, handleConnBegin st id)
      | ConnStats.other => (GoOutcome.returned, st)

/-- Result of `stream.Send(msg)` in the dispatch loop of
`SubscribeOnMetadata`: success, `io.EOF`, or some other error. -/
inductive SendResult where
  | ok
  | eof
  | other (msg : String)
deriving DecidableEq

/-- One wakeup of the `select` in the dispatch loop: either the stream
context is done, or a message arrived on the subscription channel and
sending it to the peer produced the given result. -/
inductive LoopEvent where
  | ctxDone
  | msg (sendRes : SendResult)
deriving DecidableEq

/-- Outcome of one iteration of the dispatch loop: the loop returns (with
`none` standing for Go's `nil` error), or stays active, possibly having
logged a send error. -/
inductive LoopOutcome where
  | terminated (err : Option String)
  | active (logged : Option String)
deriving DecidableEq

/-- One iteration of the `for { select { ... } }` loop in
`SubscribeOnMetadata` (server.go lines 80-93): context done returns nil;
a send that fails with `io.EOF` returns nil; any other send failure is
logged and the loop continues; a successful send continues. -/
def dispatchStep (e : LoopEvent) : LoopOutcome :=
  match e with
  | LoopEvent.ctxDone => LoopOutcome.terminated none
  | LoopEvent.msg SendResult.ok => LoopOutcome.active none
  | LoopEvent.msg SendResult.eof => LoopOutcome.terminated none
  | LoopEvent.msg (SendResult.other m) => LoopOutcome.active (some m)

/-- Result of running the dispatch loop on a finite prefix of wakeups:
either it returned, or it consumed every wakeup and is still active. -/
inductive LoopResult where
  | finished (err : Option String)
  | running
deriving DecidableEq

/-- The dispatch loop run over a finite sequence of wakeups. -/
def dispatchLoop : List LoopEvent → LoopResult
  | [] => LoopResult.running
  | e :: rest =>
      match dispatchStep e with
      | LoopOutcome.terminated r => LoopResult.finished r
      | LoopOutcome.active _ => dispatchLoop rest

/-- Modelled from the spec (storage record shape, `internal/storage` is
not under `src/`): a metadata record with address, signature, topic and
payload. -/
structure StorageMetadata where
  address : String
  signature : String
  topic : String
  payload : String
deriving DecidableEq

/-- Modelled from the spec (wire `Metadata` record, package `pb` is not
under `src/`): same fields as the storage record. -/
structure PbMetadata where
  address : String
  signature : String
  topic : String
  payload : String
deriving DecidableEq

/-- Modelled from the spec ("map storage results to the wire response
shape"; the `Metadata` converter lives outside server.go): field-for-field
conversion of a storage record to the wire record. -/
def Metadata (m : StorageMetadata) : PbMetadata :=
  { address := m.address
    signature := m.signature
    topic := m.topic
    payload := m.payload }

/-- Wire shape of `GetMetadataRequest`. -/
structure GetMetadataRequest where
  address : String
deriving DecidableEq

/-- `GetMetadata` from server.go, parameterized by the storage
collaborator `storage.Metadata.GetByAddress`; the context is modelled by
the timeout bound (in seconds) passed to the storage call: a nil request
is an `invalid request` error, otherwise the lookup runs under
`context.WithTimeout(ctx, time.Second*10)` and a storage error is
returned as is. -/
def GetMetadata
    (getByAddress : Nat → String → Except String StorageMetadata)
    (req : Option GetMetadataRequest) : Except String PbMetadata :=
  match req with
  | none => Except.error "invalid request"
  | some r =>
      match getByAddress 10 r.address with
      | Except.error e => Except.error e
      | Except.ok m => Except.ok (Metadata m)

/-- Wire shape of `ListMetadataRequest`; `req.GetPage()` yields nil both
for a nil request and for an absent page, so only the optional page is
modelled. -/
structure ListMetadataRequest where
  page : Option PbPage
deriving DecidableEq

/-- `ListMetadata` from server.go, parameterized by the storage
collaborator `storage.Metadata.List`: build the page from the request,
call the storage list with its limit, offset and order, propagate a
storage error, otherwise convert each record to the wire shape. -/
def ListMetadata
    (list : Nat → Nat → SortOrder → Except String (List StorageMetadata))
    (req : ListMetadataRequest) : Except String (List PbMetadata) :=
  let p := newPage req.page
  match list p.limit p.offset p.order with
  | Except.error e => Except.error e
  | Except.ok ms => Except.ok (ms.map Metadata)

/-- A transport-level connection-stats notification carrying the identity
minted by `TagConn` for its connection. -/
inductive ConnEvent where
  | connBegin (id : String)
  | connEnd (id : String)
deriving DecidableEq

/-- Dispatch of one connection-stats notification to the `HandleConn`
arms. -/
def handleConnEvent (st : ServerState) (e : ConnEvent) : ServerState :=
  match e with
  | ConnEvent.connBegin id => handleConnBegin st id
  | ConnEvent.connEnd id => handleConnEnd st id

/-- Folding a finite sequence of connection-stats notifications through
`HandleConn`. -/
def runTrace (st : ServerState) : List ConnEvent → ServerState
  | [] => st
  | e :: rest => runTrace (handleConnEvent st e) rest

/-- A trace is wellformed when every connection-begin carries an identity
fresh with respect to `used`, the identities seen so far — `TagConn`
mints a fresh random token per connection, never reused. -/
def freshFrom (used : List String) : List ConnEvent → Bool
  | [] => true
  | ConnEvent.connBegin id :: rest =>
      !(decide (id ∈ used)) && freshFrom (id :: used) rest
  | ConnEvent.connEnd _ :: rest => freshFrom used rest

/-- The identities mentioned by begins of a trace, accumulated. -/
def usedAfter (used : List String) : List ConnEvent → List String
  | [] => used
  | ConnEvent.connBegin id :: rest => usedAfter (id :: used) rest
  | ConnEvent.connEnd _ :: rest => usedAfter used rest

/-- The identities of the currently-open connections after a trace:
begin opens, end closes. -/
def openAfter (opens : List String) : List ConnEvent → List String
  | [] => opens
  | ConnEvent.connBegin id :: rest => openAfter (id :: opens) rest
  | ConnEvent.connEnd id :: rest =>
      openAfter (opens.filter (fun x => decide (x ≠ id))) rest

/-! ### Registry lemmas -/

theorem lookupSub_isSome_iff (m : List (String × Subscriptions)) (x : String) :
    (lookupSub m x).isSome = true ↔ x ∈ keys m := by
  induction m with
  | nil => simp [lookupSub, keys]
  | cons p rest ih =>
      obtain ⟨k, v⟩ := p
      by_cases h : k = x
      · subst h
        simp [lookupSub, keys]
      · simp only [lookupSub, if_neg h, keys, List.map_cons, List.mem_cons]
        rw [keys] at ih
        constructor
        · intro hx
          exact Or.inr (ih.mp hx)
        · rintro (hx | hx)
          · exact absurd hx.symm h
          · exact ih.mpr hx

theorem lookupSub_removeKey (m : List (String × Subscriptions))
    (id x : String) :
    lookupSub (removeKey m id) x =
      if x = id then none else lookupSub m x := by
  induction m with
  | nil =>
      simp only [removeKey, lookupSub]
      split <;> rfl
  | cons p rest ih =>
      obtain ⟨k, v⟩ := p
      by_cases hk : k = id
      · subst hk
        by_cases hx : x = k
        · subst hx
          simp [removeKey, lookupSub, ih]
        · have hkx : ¬(k = x) := fun h => hx h.symm
          simp [removeKey, lookupSub, ih, hx, hkx]
      · by_cases hkx : k = x
        · have hx : ¬(x = id) := fun h => hk (hkx.trans h)
          simp [removeKey, lookupSub, ih, hk, hkx, hx]
        · simp [removeKey, lookupSub, ih, hk, hkx]

theorem keys_removeKey_subset (m : List (String × Subscriptions))
    (id x : String) (h : x ∈ keys (removeKey m id)) : x ∈ keys m := by
  induction m with
  | nil => simp [removeKey, keys] at h
  | cons p rest ih =>
      obtain ⟨k, v⟩ := p
      by_cases hk : k = id
      · subst hk
        simp only [removeKey, if_pos rfl] at h
        simp only [keys, List.map_cons, List.mem_cons]
        exact Or.inr (ih h)
      · simp only [removeKey, if_neg hk, keys, List.map_cons,
          List.mem_cons] at h ⊢
        rcases h with h | h
        · exact Or.inl h
        · exact Or.inr (ih h)

theorem keys_removeKey_nodup (m : List (String × Subscriptions))
    (id : String) (h : (keys m).Nodup) : (keys (removeKey m id)).Nodup := by
  induction m with
  | nil => simpa [removeKey] using h
  | cons p rest ih =>
      obtain ⟨k, v⟩ := p
      simp only [keys, List.map_cons, List.nodup_cons] at h
      by_cases hk : k = id
      · subst hk
        simp only [removeKey, if_pos rfl]
        exact ih h.2
      · simp only [removeKey, if_neg hk, keys, List.map_cons,
          List.nodup_cons]
        refine ⟨fun hmem => h.1 ?_, ih h.2⟩
        exact keys_removeKey_subset rest id k hmem

theorem lookupSub_updateSub_self (m : List (String × Subscriptions))
    (id : String) (v s : Subscriptions) (h : lookupSub m id = some s) :
    lookupSub (updateSub m id v) id = some v := by
  induction m with
  | nil => simp [lookupSub] at h
  | cons p rest ih =>
      obtain ⟨k, w⟩ := p
      by_cases hk : k = id
      · subst hk
        simp [updateSub, lookupSub]
      · simp only [lookupSub, if_neg hk] at h
        simp only [updateSub, if_neg hk, lookupSub, if_neg hk]
        exact ih h

theorem handleConnEnd_eq_none (st : ServerState) (id : String)
    (h : lookupSub st.subscribers id = none) : handleConnEnd st id = st := by
  unfold handleConnEnd
  rw [h]

theorem handleConnEnd_eq_some (st : ServerState) (id : String)
    (subs : Subscriptions) (h : lookupSub st.subscribers id = some subs) :
    handleConnEnd st id =
      { st with
          subscribers := removeKey st.subscribers id
          closedChans := subsClose st.closedChans subs } := by
  unfold handleConnEnd
  rw [h]

theorem handleConnBegin_eq_none (st : ServerState) (id : String)
    (h : lookupSub st.subscribers id = none) :
    handleConnBegin st id =
      { st with
          subscribers :=
            (id, { id := id, metadata := none }) :: st.subscribers } := by
  unfold handleConnBegin
  rw [h]
  rfl

/-- Invariant carried through a trace of connection-stats notifications:
the registry keys are exactly the open identities, are duplicate-free,
and are among the identities used so far (so a fresh begin identity is
not in the registry). -/
theorem runTrace_inv (t : List ConnEvent) :
    ∀ (used opens : List String) (st : ServerState),
      freshFrom used t = true →
      (∀ x, (lookupSub st.subscribers x).isSome = true ↔ x ∈ opens) →
      (keys st.subscribers).Nodup →
      (∀ x, x ∈ keys st.subscribers → x ∈ used) →
      (∀ x, (lookupSub (runTrace st t).subscribers x).isSome = true ↔
          x ∈ openAfter opens t) ∧
        (keys (runTrace st t).subscribers).Nodup ∧
        (∀ x, x ∈ keys (runTrace st t).subscribers →
          x ∈ usedAfter used t) := by
  induction t with
  | nil =>
      intro used opens st _ h1 h2 h3
      exact ⟨h1, h2, h3⟩
  | cons e rest ih =>
      intro used opens st hf h1 h2 h3
      cases e with
      | connBegin id =>
          rw [freshFrom, Bool.and_eq_true] at hf
          obtain ⟨hid, hf'⟩ := hf
          have hidused : id ∉ used := by
            simpa using hid
          have hidkeys : id ∉ keys st.subscribers :=
            fun hm => hidused (h3 id hm)
          have hlook : lookupSub st.subscribers id = none := by
            cases hl : lookupSub st.subscribers id with
            | none => rfl
            | some v =>
                exact absurd
                  ((lookupSub_isSome_iff _ _).mp (by rw [hl]; rfl)) hidkeys
          have hstep :
              runTrace st (ConnEvent.connBegin id :: rest) =
                runTrace (handleConnBegin st id) rest := rfl
          rw [hstep, handleConnBegin_eq_none st id hlook]
          have hopen :
              openAfter opens (ConnEvent.connBegin id :: rest) =
                openAfter (id :: opens) rest := rfl
          have hused :
              usedAfter used (ConnEvent.connBegin id :: rest) =
                usedAfter (id :: used) rest := rfl
          rw [hopen, hused]
          apply ih (id :: used) (id :: opens) _ hf'
          · intro x
            by_cases hx : id = x
            · subst hx
              simp [lookupSub]
            · simp only [lookupSub, if_neg hx, List.mem_cons]
              rw [h1 x]
              constructor
              · intro hm
                exact Or.inr hm
              · rintro (hm | hm)
                · exact absurd hm.symm hx
                · exact hm
          · simp only [keys, List.map_cons, List.nodup_cons]
            exact ⟨hidkeys, h2⟩
          · intro x hx
            simp only [keys, List.map_cons, List.mem_cons] at hx
            rcases hx with hx | hx
            · rw [hx]
              exact List.mem_cons_self id used
            · exact List.mem_cons_of_mem id (h3 x hx)
      | connEnd id =>
          rw [freshFrom] at hf
          have hstep :
              runTrace st (ConnEvent.connEnd id :: rest) =
                runTrace (handleConnEnd st id) rest := rfl
          have hopen :
              openAfter opens (ConnEvent.connEnd id :: rest) =
                openAfter (opens.filter (fun x => decide (x ≠ id))) rest :=
            rfl
          have hused :
              usedAfter used (ConnEvent.connEnd id :: rest) =
                usedAfter used rest := rfl
          rw [hstep, hopen, hused]
          cases hl : lookupSub st.subscribers id with
          | none =>
              rw [handleConnEnd_eq_none st id hl]
              apply ih used _ _ hf
              · intro x
                rw [List.mem_filter]
                simp only [decide_eq_true_eq, ne_eq, decide_not,
                  Bool.not_eq_true']
                by_cases hx : x = id
                · subst hx
                  constructor
                  · intro hs
                    rw [hl] at hs
                    simp at hs
                  · intro hs
                    simp at hs
                · rw [h1 x]
                  constructor
                  · intro hm
                    exact ⟨hm, by simpa using hx⟩
                  · intro hm
                    exact hm.1
              · exact h2
              · exact h3
          | some subs =>
              rw [handleConnEnd_eq_some st id subs hl]
              apply ih used _ _ hf
              · intro x
                simp only
                rw [lookupSub_removeKey, List.mem_filter]
                simp only [decide_eq_true_eq, ne_eq, decide_not,
                  Bool.not_eq_true']
                by_cases hx : x = id
                · subst hx
                  simp
                · rw [if_neg hx, h1 x]
                  constructor
                  · intro hm
                    exact ⟨hm, by simpa using hx⟩
                  · intro hm
                    exact hm.1
              · exact keys_removeKey_nodup st.subscribers id h2
              · intro x hx
                exact h3 x (keys_removeKey_subset st.subscribers id x hx)

/-! ### Claim theorems -/

/-- Claim C1 fails on the code: at the concrete failing input — a
`SubscribeOnMetadata` (or `UnsubscribeFromMetadata`) request whose `Id`
has no registry entry, on a freshly started server — the handler returns
the `unknown subscriber` error while `subsMx` is still held (the Go code
reaches `return err` before `module.subsMx.Unlock()` and has no deferred
unlock), contradicting the claim that the lock is released before the
handler returns on every path. -/
theorem error_path_returns_with_lock_held :
    (SubscribeOnMetadata initialServerState "client").1 =
        Except.error "unknown subscriber: client" ∧
      (SubscribeOnMetadata initialServerState "client").2.lockHeld = true ∧
      (UnsubscribeFromMetadata initialServerState "client").1 =
        Except.error "unknown subscriber: client" ∧
      (UnsubscribeFromMetadata initialServerState "client").2.lockHeld =
        true ∧
      initialServerState.lockHeld = false :=
  ⟨rfl, rfl, rfl, rfl, rfl⟩

/-- The server state after connection `client` begins and its first
`SubscribeOnMetadata` call installs channel `0`. -/
def oneSubscriptionState : ServerState :=
  (SubscribeOnMetadata (handleConnBegin initialServerState "client")
    "client").2

/-- Claim C2 fails on the code: starting from the state in which
connection `client` holds live channel `0`, a second `SubscribeOnMetadata`
overwrites the bundle slot with fresh channel `1` while the set of closed
channels stays empty — `subs.Metadata = subscriptions.NewMetadata()`
never closes the previously installed channel. -/
theorem second_subscribe_never_closes_first_channel :
    lookupSub oneSubscriptionState.subscribers "client" =
        some { id := "client", metadata := some 0 } ∧
      oneSubscriptionState.closedChans = [] ∧
      (SubscribeOnMetadata oneSubscriptionState "client").1 =
        Except.ok 1 ∧
      lookupSub (SubscribeOnMetadata oneSubscriptionState
          "client").2.subscribers "client" =
        some { id := "client", metadata := some 1 } ∧
      (SubscribeOnMetadata oneSubscriptionState "client").2.closedChans =
        [] :=
  ⟨rfl, rfl, rfl, rfl, rfl⟩

/-- Claim C5: in the dispatch loop, a context-done wakeup terminates the
loop returning nil; a send failing with `io.EOF` terminates the loop
returning nil; any other send failure is logged and the loop keeps
running on the remaining wakeups; a successful send also keeps the loop
running. -/
theorem dispatchLoop_termination_policy :
    (∀ rest, dispatchLoop (LoopEvent.ctxDone :: rest) =
        LoopResult.finished none) ∧
      (∀ rest, dispatchLoop (LoopEvent.msg SendResult.eof :: rest) =
        LoopResult.finished none) ∧
      (∀ rest m,
        dispatchStep (LoopEvent.msg (SendResult.other m)) =
            LoopOutcome.active (some m) ∧
          dispatchLoop (LoopEvent.msg (SendResult.other m) :: rest) =
            dispatchLoop rest) ∧
      (∀ rest, dispatchLoop (LoopEvent.msg SendResult.ok :: rest) =
        dispatchLoop rest) :=
  ⟨fun _ => rfl, fun _ => rfl, fun _ _ => ⟨rfl, rfl⟩, fun _ => rfl⟩

/-- Claim C6: a `SubscribeOnMetadata` call whose request `Id` is absent
from the subscribers registry fails with the `unknown subscriber` error,
leaves the registry untouched and allocates no channel. -/
theorem subscribe_unknown_subscriber_error (st : ServerState)
    (reqId : String) (h : lookupSub st.subscribers reqId = none) :
    (SubscribeOnMetadata st reqId).1 =
        Except.error ("unknown subscriber: " ++ reqId) ∧
      (SubscribeOnMetadata st reqId).2.subscribers = st.subscribers ∧
      (SubscribeOnMetadata st reqId).2.nextChan = st.nextChan := by
  unfold SubscribeOnMetadata getSubscriber
  simp [h]

/-- Concrete instance of `subscribe_unknown_subscriber_error` on the
initial server state. -/
theorem subscribe_unknown_subscriber_error_witness :
    lookupSub initialServerState.subscribers "nobody" = none ∧
      (SubscribeOnMetadata initialServerState "nobody").1 =
        Except.error ("unknown subscriber: " ++ "nobody") :=
  ⟨rfl,
    (subscribe_unknown_subscriber_error initialServerState "nobody"
      rfl).1⟩

/-- Claim C7: `UnsubscribeFromMetadata` on a registered connection whose
bundle holds no metadata channel returns the success acknowledgment and
leaves the bundle with an absent channel reference. -/
theorem unsubscribe_without_subscription_succeeds (st : ServerState)
    (reqId : String) (subs : Subscriptions)
    (h : lookupSub st.subscribers reqId = some subs)
    (hm : subs.metadata = none) :
    (UnsubscribeFromMetadata st reqId).1 =
        Except.ok { message := successMessage } ∧
      lookupSub (UnsubscribeFromMetadata st reqId).2.subscribers reqId =
        some subs := by
  have hsubs : ({ subs with metadata := none } : Subscriptions) = subs := by
    cases subs
    simp_all
  unfold UnsubscribeFromMetadata getSubscriber
  simp only [h]
  refine ⟨trivial, ?_⟩
  rw [hsubs]
  exact lookupSub_updateSub_self st.subscribers reqId subs subs h

/-- Concrete instance of `unsubscribe_without_subscription_succeeds`: a
registered connection that never subscribed. -/
theorem unsubscribe_without_subscription_succeeds_witness :
    lookupSub (handleConnBegin initialServerState "client").subscribers
        "client" = some { id := "client", metadata := none } ∧
      (UnsubscribeFromMetadata (handleConnBegin initialServerState
          "client") "client").1 =
        Except.ok { message := successMessage } :=
  ⟨rfl,
    (unsubscribe_without_subscription_succeeds
      (handleConnBegin initialServerState "client") "client"
      { id := "client", metadata := none } rfl rfl).1⟩

/-- Claim C10: `HandleConn` on a context carrying no client identity
panics on the unchecked type assertion `ctx.Value(clientID).(string)`,
whatever the kind of connection-stats event, leaving the state
untouched. -/
theorem handleConn_without_identity_panics (s : ConnStats)
    (st : ServerState) : HandleConn none s st = (GoOutcome.panicked, st) :=
  rfl

/-- Claim C3: after any finite sequence of connection-begin
and connection-end notifications with fresh begin identities, the registry
contains exactly the currently-open identities and no identity twice;
moreover a begin for an unregistered identity inserts an entry with an
empty bundle, and after an end for an identity that identity has no
entry. -/
theorem registry_contains_exactly_open_connections (t : List ConnEvent)
    (h : freshFrom [] t = true) :
    (∀ x,
        (lookupSub (runTrace initialServerState t).subscribers x).isSome =
            true ↔
          x ∈ openAfter [] t) ∧
      (keys (runTrace initialServerState t).subscribers).Nodup ∧
      (∀ st id, lookupSub st.subscribers id = none →
        lookupSub (handleConnBegin st id).subscribers id =
          some { id := id, metadata := none }) ∧
      (∀ st id,
        lookupSub (handleConnEnd st id).subscribers id = none) := by
  have hinv := runTrace_inv t [] [] initialServerState h
    (by intro x; simp [initialServerState, lookupSub])
    (by simp [initialServerState, keys])
    (by intro x hx; simp [initialServerState, keys] at hx)
  refine ⟨hinv.1, hinv.2.1, ?_, ?_⟩
  · intro st id h0
    rw [handleConnBegin_eq_none st id h0]
    simp [lookupSub]
  · intro st id
    cases hl : lookupSub st.subscribers id with
    | none =>
        rw [handleConnEnd_eq_none st id hl]
        exact hl
    | some subs =>
        rw [handleConnEnd_eq_some st id subs hl]
        simp only
        rw [lookupSub_removeKey]
        simp

/-- A sample trace: `a` and `b` connect, then `a` disconnects. -/
def demoTrace : List ConnEvent :=
  [ConnEvent.connBegin "a", ConnEvent.connBegin "b",
    ConnEvent.connEnd "a"]

/-- Concrete instance of `registry_contains_exactly_open_connections` on
`demoTrace`: `b` is open and registered. -/
theorem registry_contains_exactly_open_connections_witness :
    freshFrom [] demoTrace = true ∧
      ((lookupSub (runTrace initialServerState demoTrace).subscribers
            "b").isSome = true ↔
        "b" ∈ openAfter [] demoTrace) :=
  ⟨rfl, (registry_contains_exactly_open_connections demoTrace rfl).1 "b"⟩

/-- Claim C4: a connection-end for a registered identity closes every
channel its bundle holds and removes exactly that entry; a connection-end
for an unregistered identity leaves the whole state unchanged (and in
particular raises nothing), so disconnect is idempotent. -/
theorem connEnd_closes_bundle_and_removes_entry (st : ServerState)
    (id : String) :
    (∀ subs, lookupSub st.subscribers id = some subs →
      (handleConnEnd st id).subscribers = removeKey st.subscribers id ∧
        lookupSub (handleConnEnd st id).subscribers id = none ∧
        (∀ x, x ≠ id →
          lookupSub (handleConnEnd st id).subscribers x =
            lookupSub st.subscribers x) ∧
        (∀ ch, subs.metadata = some ch →
          ch ∈ (handleConnEnd st id).closedChans)) ∧
      (lookupSub st.subscribers id = none → handleConnEnd st id = st) := by
  constructor
  · intro subs hl
    rw [handleConnEnd_eq_some st id subs hl]
    refine ⟨rfl, ?_, ?_, ?_⟩
    · simp only
      rw [lookupSub_removeKey]
      simp
    · intro x hx
      simp only
      rw [lookupSub_removeKey, if_neg hx]
    · intro ch hch
      simp only [subsClose, hch]
      exact List.mem_cons_self ch st.closedChans
  · intro hl
    exact handleConnEnd_eq_none st id hl

/-- Concrete instance of `connEnd_closes_bundle_and_removes_entry`:
disconnecting `client`, who holds channel `0`, closes that channel and
removes the entry; a second disconnect is a no-op. -/
theorem connEnd_closes_bundle_and_removes_entry_witness :
    lookupSub oneSubscriptionState.subscribers "client" =
        some { id := "client", metadata := some 0 } ∧
      0 ∈ (handleConnEnd oneSubscriptionState "client").closedChans ∧
      lookupSub (handleConnEnd oneSubscriptionState "client").subscribers
          "client" = none ∧
      handleConnEnd (handleConnEnd oneSubscriptionState "client")
          "client" =
        handleConnEnd oneSubscriptionState "client" :=
  ⟨rfl,
    ((connEnd_closes_bundle_and_removes_entry oneSubscriptionState
        "client").1 { id := "client", metadata := some 0 } rfl).2.2.2 0 rfl,
    ((connEnd_closes_bundle_and_removes_entry oneSubscriptionState
        "client").1 { id := "client", metadata := some 0 } rfl).2.1,
    (connEnd_closes_bundle_and_removes_entry
        (handleConnEnd oneSubscriptionState "client") "client").2 rfl⟩

/-- Claim C8: `GetMetadata` propagates a storage error unchanged, and its
result depends on the storage collaborator only through the point lookup
made under the 10-second timeout bound. -/
theorem getMetadata_timeout_and_error_propagation
    (f g : Nat → String → Except String StorageMetadata)
    (r : GetMetadataRequest) (e : String) :
    (f 10 r.address = Except.error e →
        GetMetadata f (some r) = Except.error e) ∧
      ((∀ a, f 10 a = g 10 a) →
        GetMetadata f (some r) = GetMetadata g (some r)) := by
  constructor
  · intro h
    unfold GetMetadata
    simp [h]
  · intro h
    unfold GetMetadata
    simp [h r.address]

/-- Concrete instance of `getMetadata_timeout_and_error_propagation`: a
failing storage lookup surfaces verbatim. -/
theorem getMetadata_timeout_and_error_propagation_witness :
    ((fun (_ : Nat) (_ : String) =>
          (Except.error "storage down" : Except String StorageMetadata))
        10 "0xabc" = Except.error "storage down") ∧
      GetMetadata (fun _ _ => Except.error "storage down")
          (some { address := "0xabc" }) =
        Except.error "storage down" :=
  ⟨rfl,
    (getMetadata_timeout_and_error_propagation
        (fun _ _ => Except.error "storage down")
        (fun _ _ => Except.error "storage down")
        { address := "0xabc" } "storage down").1 rfl⟩

/-- Claim C9: `newPage` copies limit and offset unchanged, maps the order
to descending exactly when the request order is DESC, defaults to
ascending otherwise (absent page included), and `ListMetadata` passes the
derived page fields as-is to the storage list call. -/
theorem newPage_defaults_and_passthrough (r : PbPage) :
    (newPage (some r)).limit = r.limit ∧
      (newPage (some r)).offset = r.offset ∧
      (r.order = pbSortOrderDESC →
        (newPage (some r)).order = SortOrder.desc) ∧
      (r.order ≠ pbSortOrderDESC →
        (newPage (some r)).order = SortOrder.asc) ∧
      (newPage none).order = SortOrder.asc ∧
      (∀ f req, ListMetadata f req =
        Except.map (fun ms => ms.map Metadata)
          (f (newPage req.page).limit (newPage req.page).offset
            (newPage req.page).order)) := by
  refine ⟨rfl, rfl, ?_, ?_, rfl, ?_⟩
  · intro h
    simp [newPage, h, pbSortOrderASC, pbSortOrderDESC]
  · intro h
    by_cases h0 : r.order = pbSortOrderASC
    · simp [newPage, h0]
    · simp [newPage, h0, h]
  · intro f req
    unfold ListMetadata
    cases hf : f (newPage req.page).limit (newPage req.page).offset
        (newPage req.page).order with
    | error e => simp [hf, Except.map]
    | ok ms => simp [hf, Except.map]

/-- A sample page request: limit 10, offset 0, order DESC. -/
def demoPbPage : PbPage :=
  { limit := 10, offset := 0, order := pbSortOrderDESC }

/-- Concrete instance of `newPage_defaults_and_passthrough`: limit 10,
offset 0, order DESC maps to a descending page. -/
theorem newPage_defaults_and_passthrough_witness :
    demoPbPage.order = pbSortOrderDESC ∧
      (newPage (some demoPbPage)).order = SortOrder.desc :=
  ⟨rfl, (newPage_defaults_and_passthrough demoPbPage).2.2.1 rfl⟩

end AbiIndexer
